import Mathlib

/-!
Verification of the BNCC dashboard (src/app.py): the record-store adapter and
the aggregation pipeline, embedded as pure functions over lists.

Dates are embedded as day numbers (Int); resultado values are integer percents.
Float cells computed by pandas are embedded as exact fractions (Frac, an
integer numerator over a positive integer denominator), extended with explicit
infinity/NaN constructors where pandas float division by zero produces them;
Frac.val maps a fraction to the rational number it denotes.
-/

namespace BNCC

/-- An exact fraction: the value of a finite pandas float cell. -/
structure Frac where
  num : Int
  den : Int
  pos : 0 < den

instance : DecidableEq Frac := fun a b =>
  decidable_of_iff (a.num = b.num ∧ a.den = b.den) (by cases a; cases b; simp)

/-- The rational number a fraction denotes. -/
def Frac.val (f : Frac) : ℚ := (f.num : ℚ) / (f.den : ℚ)

/-- Sum of two fractions. -/
def fadd (a b : Frac) : Frac :=
  ⟨a.num * b.den + b.num * a.den, a.den * b.den, mul_pos a.pos b.pos⟩

/-- Difference of two fractions. -/
def fsub (a b : Frac) : Frac :=
  ⟨a.num * b.den - b.num * a.den, a.den * b.den, mul_pos a.pos b.pos⟩

/-- Product of two fractions. -/
def fmul (a b : Frac) : Frac :=
  ⟨a.num * b.num, a.den * b.den, mul_pos a.pos b.pos⟩

/-- Quotient of two fractions (junk value 0 when the divisor is zero; the
pipeline only divides by nonzero values, the zero case is handled before). -/
def fdiv (a b : Frac) : Frac :=
  if h : 0 < b.num then ⟨a.num * b.den, a.den * b.num, mul_pos a.pos h⟩
  else if h' : b.num < 0 then
    ⟨-(a.num * b.den), a.den * -b.num, mul_pos a.pos (neg_pos.mpr h')⟩
  else ⟨0, 1, one_pos⟩

/-- Comparison of fractions by cross multiplication (denominators positive). -/
def fle (a b : Frac) : Bool := decide (a.num * b.den ≤ b.num * a.den)

/-- Strict comparison of fractions by cross multiplication. -/
def flt (a b : Frac) : Bool := decide (a.num * b.den < b.num * a.den)

/-- Round half to even to an integer, on a fraction: the rounding used by
Python round and by numpy/pandas round. -/
def rneF (f : Frac) : Int :=
  let q := f.num / f.den
  let r2 := 2 * (f.num - q * f.den)
  if r2 < f.den then q
  else if f.den < r2 then q + 1
  else if q % 2 = 0 then q else q + 1

/-- Series.round(2) on a finite cell. -/
def fround2 (f : Frac) : Frac :=
  ⟨rneF (fmul f ⟨100, 1, one_pos⟩), 100, by norm_num⟩

/-- Round half to even to an integer on the denoted rationals, for stating
value-level facts about fround2. -/
def rneQ (q : ℚ) : ℤ :=
  if q - ⌊q⌋ < 1/2 then ⌊q⌋
  else if 1/2 < q - ⌊q⌋ then ⌊q⌋ + 1
  else if ⌊q⌋ % 2 = 0 then ⌊q⌋ else ⌊q⌋ + 1

/-- round(q, 2) on the denoted rationals. -/
def round2Q (q : ℚ) : ℚ := (rneQ (q * 100) : ℚ) / 100

/-- Lexicographic comparison of character lists by code point. -/
def leChars : List Char → List Char → Bool
  | [], _ => true
  | _ :: _, [] => false
  | a :: as, b :: bs =>
    if a.toNat < b.toNat then true
    else if b.toNat < a.toNat then false
    else leChars as bs

/-- Alphabetical order on names, as the store's order-by-name produces it. -/
def strLe (a b : String) : Bool := leChars a.data b.data

/-- strLe as a relation, for the sorting lemmas. -/
def rStr : String → String → Prop := fun a b => strLe a b = true

instance : DecidableRel rStr := fun _ _ => instDecidableEqBool _ _

/-- Sorted list of the distinct values of l: the sorted group keys produced by
a pandas groupby. -/
def sortDedup {α : Type} (r : α → α → Prop) [DecidableRel r] [DecidableEq α]
    (l : List α) : List α :=
  (l.insertionSort r).dedup

/-- A row of the relatorios_bncc table as produced by carregar_dados, with all
fields present (the aggregation pipeline operates on such rows). -/
structure Registro where
  escola : String
  serie : String
  disciplina : String
  data : Int
  resultado : Int
  construtor : String
  deriving DecidableEq

/-- Arithmetic mean of a list of integer results: the pandas mean of a group
(groups built by groupby are never empty; the empty case is junk). -/
def media (l : List Int) : Frac :=
  if h : l = [] then ⟨0, 1, one_pos⟩
  else ⟨l.sum, l.length, by exact_mod_cast List.length_pos.mpr h⟩

/-- Distinct schools of the filtered dataframe, ascending (groupby sorts its
keys). -/
def escolasDe (rs : List Registro) : List String :=
  sortDedup rStr (rs.map (fun r => r.escola))

/-- Distinct dates on which school e has records, ascending. -/
def datasDe (rs : List Registro) (e : String) : List Int :=
  sortDedup (fun a b => a ≤ b)
    ((rs.filter (fun r => decide (r.escola = e))).map (fun r => r.data))

/-- Mean result of school e on date d: one cell of
ts = df_f.groupby([escola, data])[resultado].mean(). -/
def mediaEm (rs : List Registro) (e : String) (d : Int) : Frac :=
  media ((rs.filter (fun r => decide (r.escola = e) && decide (r.data = d))).map
    (fun r => r.resultado))

/-- The per-school slice of ts: for each distinct date of school e in ascending
order, the averaged result on that date. -/
def tsDe (rs : List Registro) (e : String) : List (Int × Frac) :=
  (datasDe rs e).map (fun d => (d, mediaEm rs e d))

/-- A row of fl = ts.groupby(escola).agg(primeiro, ultimo, count). -/
structure FLRow where
  escola : String
  primeiro : Frac
  ultimo : Frac
  count : Nat
  deriving DecidableEq

/-- The fl row of school e: first and last value of its slice of ts (which is
ordered by ascending date) and the number of rows of that slice. -/
def flRowDe (rs : List Registro) (e : String) : FLRow :=
  { escola := e
    primeiro := ((tsDe rs e).head?.map Prod.snd).getD ⟨0, 1, one_pos⟩
    ultimo := ((tsDe rs e).getLast?.map Prod.snd).getD ⟨0, 1, one_pos⟩
    count := (tsDe rs e).length }

/-- fl before the count filter: one row per school of the filtered dataframe. -/
def flAll (rs : List Registro) : List FLRow :=
  (escolasDe rs).map (flRowDe rs)

/-- fl = fl[fl count >= 2]: schools on fewer than two distinct dates are
dropped from the variation computation. -/
def fl (rs : List Registro) : List FLRow :=
  (flAll rs).filter (fun r => decide (2 ≤ r.count))

/-- Value of a pandas float cell: a finite fraction, an infinity (division of
a nonzero value by zero), or NaN (0/0). -/
inductive PVal where
  | num (f : Frac)
  | posInf
  | negInf
  | nan
  deriving DecidableEq

/-- fl[variacao] = ((ultimo - primeiro) / primeiro * 100).round(2), with the
pandas behaviour of float division by zero made explicit: a first value of 0
gives an infinity (or NaN when the numerator is also 0), never an exception. -/
def variacao (primeiro ultimo : Frac) : PVal :=
  if primeiro.num = 0 then
    if (fsub ultimo primeiro).num = 0 then PVal.nan
    else if 0 < (fsub ultimo primeiro).num then PVal.posInf
    else PVal.negInf
  else PVal.num (fround2 (fmul (fdiv (fsub ultimo primeiro) primeiro) ⟨100, 1, one_pos⟩))

/-- Sum of a list of fractions. -/
def fsum (l : List Frac) : Frac := l.foldr fadd ⟨0, 1, one_pos⟩

/-- Mean of a nonempty list of fractions. -/
def fmean (l : List Frac) : Frac := fdiv (fsum l) ⟨(l.length : Int), 1, one_pos⟩

/-- Series.mean with skipna: NaN entries are skipped, infinities are not;
NaN results from an empty (or all-NaN) series or from mixed infinities. -/
def pmean (l : List PVal) : PVal :=
  let kept := l.filter (fun v => decide (v ≠ PVal.nan))
  if kept.isEmpty then PVal.nan
  else if kept.contains PVal.posInf && kept.contains PVal.negInf then PVal.nan
  else if kept.contains PVal.posInf then PVal.posInf
  else if kept.contains PVal.negInf then PVal.negInf
  else PVal.num (fmean (kept.filterMap (fun v =>
    match v with
    | PVal.num q => some q
    | _ => none)))

/-- round(x, 2) on a possibly non-finite cell (round of an infinity is that
infinity, of NaN is NaN). -/
def pround2 (v : PVal) : PVal :=
  match v with
  | PVal.num q => PVal.num (fround2 q)
  | w => w

/-- The variacao column of fl, in fl row order. -/
def variacoes (rs : List Registro) : List PVal :=
  (fl rs).map (fun r => variacao r.primeiro r.ultimo)

/-- The Media Variacao KPI: round(fl[variacao].mean(), 2). -/
def mediaVariacao (rs : List Registro) : PVal :=
  pround2 (pmean (variacoes rs))

/-- avg_s = df_f.groupby(escola)[resultado].mean(): per-school mean result. -/
def avg_s (rs : List Registro) : List (String × Frac) :=
  (escolasDe rs).map (fun e =>
    (e, media ((rs.filter (fun r => decide (r.escola = e))).map
      (fun r => r.resultado))))

/-- Descending order by mean, for the Top 10 ranking. -/
def rDesc : String × Frac → String × Frac → Prop := fun p q => fle q.2 p.2 = true

instance : DecidableRel rDesc := fun _ _ => instDecidableEqBool _ _

/-- Ascending order by mean, for the Top 10 a Melhorar ranking. -/
def rAsc : String × Frac → String × Frac → Prop := fun p q => fle p.2 q.2 = true

instance : DecidableRel rAsc := fun _ _ => instDecidableEqBool _ _

/-- best = avg_s[media >= 50].nlargest(10): the rows with mean at least 50,
stably sorted descending by mean, first 10. -/
def best (rs : List Registro) : List (String × Frac) :=
  (((avg_s rs).filter (fun p => fle ⟨50, 1, one_pos⟩ p.2)).insertionSort rDesc).take 10

/-- worst = avg_s[media < 50].nsmallest(10): the rows with mean below 50,
stably sorted ascending by mean, first 10. -/
def worst (rs : List Registro) : List (String × Frac) :=
  (((avg_s rs).filter (fun p => flt p.2 ⟨50, 1, one_pos⟩)).insertionSort rAsc).take 10

/-- The sidebar date-range filter: when Data Inicial exceeds Data Final the
script stops (st.stop) and no filtered frame exists at all; otherwise df_f
keeps the rows with inicio <= data <= fim. -/
def filtroDatas (inicio fim : Int) (rs : List Registro) : Option (List Registro) :=
  if fim < inicio then none
  else some (rs.filter (fun r => decide (inicio ≤ r.data) && decide (r.data ≤ fim)))

/-- Ascending order by record date, as carregar_dados requests it. -/
def rData : Registro → Registro → Prop := fun a b => a.data ≤ b.data

instance : DecidableRel rData := fun a b => Int.decLe a.data b.data

/-- carregar_dados: select * from relatorios_bncc order by data ascending; the
store's order clause is embedded as a stable sort by data. An empty table gives
an empty frame, not an error. -/
def carregar_dados (tabela : List Registro) : List Registro :=
  tabela.insertionSort rData

/-- load_list: select the name column from a lookup table ordered ascending. -/
def load_list (tabela : List String) : List String :=
  tabela.insertionSort rStr

/-- A raw loaded row with possibly missing fields, as seen by the has-data
check on line 80 of app.py. -/
structure Row where
  escola : Option String
  serie : Option String
  disciplina : Option String
  data : Option Int
  resultado : Option Int
  construtor : Option String
  deriving DecidableEq

/-- The dashboard's has-data check: not
df.dropna(how="all", subset=["escola","construtor","resultado"]).empty, that
is, some row has escola, construtor, resultado not all missing. -/
def temDados (rows : List Row) : Bool :=
  !(rows.filter (fun r => r.escola.isSome || r.construtor.isSome || r.resultado.isSome)).isEmpty

/-- Modelled from the spec: a collection has data exactly when some row has its
grouping key fields (school, gradeLevel, subject, constructor) not all null.
Stated for comparison with the implemented check temDados. -/
def temDadosSpec (rows : List Row) : Bool :=
  rows.any (fun r =>
    r.escola.isSome || r.serie.isSome || r.disciplina.isSome || r.construtor.isSome)

/-- A buffered entry of st.session_state.entries. -/
structure Entrada where
  construtor : String
  resultado : Int
  deriving DecidableEq

/-- The record the submit loop builds from one buffered entry plus the shared
form fields. -/
def mkRegistro (escola serie disciplina : String) (data : Int) (e : Entrada) : Registro :=
  { escola := escola
    serie := serie
    disciplina := disciplina
    data := data
    resultado := e.resultado
    construtor := e.construtor }

/-- Session and store state seen by the handlers: the three tables, the session
buffer of pending entries, and the memoized snapshot (none = invalidated). -/
structure AppState where
  relatorios : List Registro
  escolas : List String
  construtores : List String
  entries : List Entrada
  cache : Option (List Registro × List String × List String)
  deriving DecidableEq

/-- What the cached readers return: the memoized snapshot when present,
otherwise fresh reads of the three tables. -/
def leituras (s : AppState) : List Registro × List String × List String :=
  match s.cache with
  | some snap => snap
  | none => (carregar_dados s.relatorios, load_list s.escolas, load_list s.construtores)

/-- The cache is invalidated: the next read recomputes from the store. -/
def invalidado (s : AppState) : Prop :=
  s.cache = none ∧
  leituras s = (carregar_dados s.relatorios, load_list s.escolas, load_list s.construtores)

/-- The body of the Cadastrar registros loop: inserts rows one at a time; the
first failing insert raises out of the loop, so later rows are never attempted.
Returns the successfully inserted prefix and the first failure, if any; falha
gives each insert's outcome (none = success, some msg = exception). -/
def insertLoop (falha : Registro → Option String) : List Registro → List Registro × Option String
  | [] => ([], none)
  | r :: rest =>
    match falha r with
    | some msg => ([], some msg)
    | none =>
      let p := insertLoop falha rest
      (r :: p.1, p.2)

/-- The Cadastrar registros handler: inserts every buffered entry in order; on
full success it clears the buffer and the cache; an exception partway leaves
buffer and cache untouched (the lines after the loop never run) while the rows
inserted before the failure stay in the table. -/
def submit_main (falha : Registro → Option String) (escola serie disciplina : String)
    (data : Int) (s : AppState) : AppState :=
  let regs := s.entries.map (mkRegistro escola serie disciplina data)
  let p := insertLoop falha regs
  match p.2 with
  | none => { s with relatorios := s.relatorios ++ p.1, entries := [], cache := none }
  | some _ => { s with relatorios := s.relatorios ++ p.1 }

/-- The Adicionar Escola handler: the guard (button pressed and new_esc truthy)
requires a non-empty name; on insert the cache is cleared. -/
def add_escola (nome : String) (s : AppState) : AppState :=
  if nome = "" then s
  else { s with escolas := s.escolas ++ [nome], cache := none }

/-- Deleting a school: delete().eq(nome) removes every matching row, then the
cache is cleared. -/
def del_escola (nome : String) (s : AppState) : AppState :=
  { s with escolas := s.escolas.filter (fun n => decide (n ≠ nome)), cache := none }

/-- The Adicionar Construtor handler, with the same non-empty guard. -/
def add_construtor (nome : String) (s : AppState) : AppState :=
  if nome = "" then s
  else { s with construtores := s.construtores ++ [nome], cache := none }

/-- Deleting a constructor name, followed by a cache clear. -/
def del_construtor (nome : String) (s : AppState) : AppState :=
  { s with construtores := s.construtores.filter (fun n => decide (n ≠ nome)), cache := none }

/-! Concrete inputs used by the witnesses and counterexamples below. -/

def rsC1 : List Registro :=
  [ { escola := "A", serie := "1 ano", disciplina := "Portugues", data := 0,
      resultado := 0, construtor := "X" },
    { escola := "A", serie := "1 ano", disciplina := "Portugues", data := 1,
      resultado := 20, construtor := "X" } ]

def regC2 : List Registro :=
  [ { escola := "A", serie := "1 ano", disciplina := "Portugues", data := 2,
      resultado := 10, construtor := "X" },
    { escola := "B", serie := "1 ano", disciplina := "Portugues", data := 7,
      resultado := 20, construtor := "X" } ]

def rsC3 : List Registro :=
  [ { escola := "A", serie := "S1", disciplina := "Portugues", data := 0,
      resultado := 40, construtor := "S1" },
    { escola := "A", serie := "S1", disciplina := "Portugues", data := 60,
      resultado := 60, construtor := "S1" } ]

def rsC4 : List Registro :=
  [ { escola := "A", serie := "1 ano", disciplina := "Portugues", data := 3,
      resultado := 30, construtor := "X" },
    { escola := "A", serie := "1 ano", disciplina := "Portugues", data := 3,
      resultado := 50, construtor := "Y" },
    { escola := "A", serie := "1 ano", disciplina := "Portugues", data := 9,
      resultado := 60, construtor := "X" } ]

def rsC5 : List Registro :=
  [ { escola := "A", serie := "1 ano", disciplina := "Portugues", data := 0,
      resultado := 80, construtor := "X" },
    { escola := "B", serie := "1 ano", disciplina := "Portugues", data := 0,
      resultado := 30, construtor := "X" } ]

def falhaC6 : Registro → Option String :=
  fun r => if r.construtor = "B" then some "transport" else none

def sC6 : AppState :=
  { relatorios := []
    escolas := []
    construtores := []
    entries := [⟨"A", 50⟩, ⟨"B", 60⟩, ⟨"C", 70⟩]
    cache := some ([], [], []) }

def sW8 : AppState :=
  { relatorios := []
    escolas := ["E1"]
    construtores := ["C1"]
    entries := [⟨"C1", 50⟩]
    cache := some ([], ["STALE"], []) }

def rowC9 : Row :=
  { escola := none
    serie := some "1 ano"
    disciplina := some "Portugues"
    data := some 0
    resultado := none
    construtor := none }

def sW10 : AppState :=
  { relatorios := []
    escolas := ["E1"]
    construtores := []
    entries := []
    cache := none }

/-! Order-theoretic facts about the sort relations, and value-level lemmas
bridging the Frac computations to the rationals they denote. -/

instance : IsTotal Registro rData := ⟨fun a b => Int.le_total a.data b.data⟩

instance : IsTrans Registro rData := ⟨fun _ _ _ h1 h2 => le_trans h1 h2⟩

theorem den_cast_pos (f : Frac) : (0 : ℚ) < (f.den : ℚ) := by exact_mod_cast f.pos

theorem den_cast_ne (f : Frac) : (f.den : ℚ) ≠ 0 := (den_cast_pos f).ne'

theorem val_mk (n : Int) (h : (0:Int) < 1) : Frac.val ⟨n, 1, h⟩ = (n : ℚ) := by
  rw [Frac.val]
  norm_num

theorem val_fsub (a b : Frac) : (fsub a b).val = a.val - b.val := by
  unfold fsub Frac.val
  rw [div_sub_div _ _ (den_cast_ne a) (den_cast_ne b)]
  push_cast
  ring_nf

theorem val_fmul (a b : Frac) : (fmul a b).val = a.val * b.val := by
  unfold fmul Frac.val
  rw [div_mul_div_comm]
  push_cast
  ring_nf

theorem val_fdiv (a b : Frac) (h : b.num ≠ 0) : (fdiv a b).val = a.val / b.val := by
  have hb : ((b.num : ℚ)) ≠ 0 := Int.cast_ne_zero.mpr h
  rcases lt_or_gt_of_ne h with hn | hp
  · rw [fdiv, dif_neg (by omega), dif_pos hn]
    unfold Frac.val
    push_cast
    field_simp
  · rw [fdiv, dif_pos hp]
    unfold Frac.val
    push_cast
    field_simp

theorem val_eq_zero_iff (f : Frac) : f.val = 0 ↔ f.num = 0 := by
  unfold Frac.val
  rw [div_eq_zero_iff]
  simp [den_cast_ne f]

theorem fle_iff (a b : Frac) : fle a b = true ↔ a.val ≤ b.val := by
  unfold fle Frac.val
  rw [decide_eq_true_eq, div_le_div_iff (den_cast_pos a) (den_cast_pos b)]
  constructor
  · intro h
    exact_mod_cast h
  · intro h
    exact_mod_cast h

theorem flt_iff (a b : Frac) : flt a b = true ↔ a.val < b.val := by
  unfold flt Frac.val
  rw [decide_eq_true_eq, div_lt_div_iff (den_cast_pos a) (den_cast_pos b)]
  constructor
  · intro h
    exact_mod_cast h
  · intro h
    exact_mod_cast h

theorem floor_val (f : Frac) : ⌊f.val⌋ = f.num / f.den := by
  have h : ((f.den.toNat : ℕ) : ℤ) = f.den := Int.toNat_of_nonneg f.pos.le
  have h2 : (f.den : ℚ) = ((f.den.toNat : ℕ) : ℚ) := by exact_mod_cast h.symm
  rw [Frac.val, h2, Rat.floor_intCast_div_natCast, h]

theorem rneF_eq (f : Frac) : rneF f = rneQ f.val := by
  have hd : (0:ℚ) < (f.den : ℚ) := den_cast_pos f
  have hq : ⌊f.val⌋ = f.num / f.den := floor_val f
  have hval : f.val - ((f.num / f.den : ℤ) : ℚ) =
      ((f.num - f.num / f.den * f.den : ℤ) : ℚ) / (f.den : ℚ) := by
    rw [Frac.val]
    push_cast
    field_simp
    ring
  have key1 : ∀ r d : ℤ, 0 < d → (((r : ℤ) : ℚ) < 1/2 * d ↔ 2 * r < d) := by
    intro r d hd0
    constructor
    · intro h
      have h2 : ((2 * r : ℤ) : ℚ) < ((d : ℤ) : ℚ) := by
        push_cast
        linarith
      exact_mod_cast h2
    · intro h
      have h2 : ((2 * r : ℤ) : ℚ) < ((d : ℤ) : ℚ) := by exact_mod_cast h
      push_cast at h2
      linarith
  have key2 : ∀ r d : ℤ, 0 < d → ((1/2 * (d : ℚ) < ((r : ℤ) : ℚ)) ↔ d < 2 * r) := by
    intro r d hd0
    constructor
    · intro h
      have h2 : ((d : ℤ) : ℚ) < ((2 * r : ℤ) : ℚ) := by
        push_cast
        linarith
      exact_mod_cast h2
    · intro h
      have h2 : ((d : ℤ) : ℚ) < ((2 * r : ℤ) : ℚ) := by exact_mod_cast h
      push_cast at h2
      linarith
  have h1 : (f.val - ((f.num / f.den : ℤ) : ℚ) < 1/2) ↔
      2 * (f.num - f.num / f.den * f.den) < f.den := by
    rw [hval, div_lt_iff hd]
    exact key1 _ _ f.pos
  have h2 : (1/2 < f.val - ((f.num / f.den : ℤ) : ℚ)) ↔
      f.den < 2 * (f.num - f.num / f.den * f.den) := by
    rw [hval, lt_div_iff hd]
    exact key2 _ _ f.pos
  simp only [rneF, rneQ, hq, h1, h2]

theorem val_fround2 (f : Frac) : (fround2 f).val = round2Q f.val := by
  have h100 : (fmul f ⟨100, 1, one_pos⟩).val = f.val * 100 := by
    rw [val_fmul, val_mk]
    norm_num
  rw [fround2, round2Q, Frac.val]
  simp only
  rw [rneF_eq, h100]
  norm_num

theorem mem_sortDedup {α : Type} (r : α → α → Prop) [DecidableRel r] [DecidableEq α]
    {a : α} {l : List α} : a ∈ sortDedup r l ↔ a ∈ l := by
  unfold sortDedup
  rw [List.mem_dedup, List.mem_insertionSort]

theorem nodup_sortDedup {α : Type} (r : α → α → Prop) [DecidableRel r] [DecidableEq α]
    (l : List α) : (sortDedup r l).Nodup :=
  List.nodup_dedup _

theorem length_sortDedup {α : Type} (r : α → α → Prop) [DecidableRel r] [DecidableEq α]
    (l : List α) : (sortDedup r l).length = l.dedup.length :=
  ((List.perm_insertionSort r l).dedup).length_eq

theorem pairwise_sortDedup {α : Type} (r : α → α → Prop) [DecidableRel r] [DecidableEq α]
    [IsTotal α r] [IsTrans α r] (l : List α) : (sortDedup r l).Pairwise r :=
  (List.sorted_insertionSort r l).sublist (List.dedup_sublist _)

theorem head_min {l : List Int} (hs : l.Pairwise (fun a b => a ≤ b)) (h : l ≠ []) :
    ∀ x ∈ l, l.head h ≤ x := by
  cases l with
  | nil => exact absurd rfl h
  | cons a t =>
    intro x hx
    rcases List.mem_cons.mp hx with hx | hx
    · subst hx
      exact le_refl _
    · exact (List.pairwise_cons.mp hs).1 x hx

theorem getLast_max {l : List Int} (hs : l.Pairwise (fun a b => a ≤ b)) (h : l ≠ []) :
    ∀ x ∈ l, x ≤ l.getLast h := by
  induction l with
  | nil => exact absurd rfl h
  | cons a t ih =>
    intro x hx
    cases t with
    | nil =>
      rcases List.mem_cons.mp hx with hx | hx
      · subst hx
        simp [List.getLast]
      · simp at hx
    | cons b t2 =>
      rw [List.getLast_cons (by simp)]
      rcases List.mem_cons.mp hx with hx | hx
      · subst hx
        exact (List.pairwise_cons.mp hs).1 _ (List.getLast_mem _)
      · exact ih (List.pairwise_cons.mp hs).2 (by simp) x hx

instance : IsTrans (String × Frac) rDesc :=
  ⟨fun _ _ _ h1 h2 => (fle_iff _ _).mpr (le_trans ((fle_iff _ _).mp h2) ((fle_iff _ _).mp h1))⟩

instance : IsTotal (String × Frac) rDesc :=
  ⟨fun a b => (le_total (Frac.val b.2) (Frac.val a.2)).imp
    (fun h => (fle_iff _ _).mpr h) (fun h => (fle_iff _ _).mpr h)⟩

instance : IsTrans (String × Frac) rAsc :=
  ⟨fun _ _ _ h1 h2 => (fle_iff _ _).mpr (le_trans ((fle_iff _ _).mp h1) ((fle_iff _ _).mp h2))⟩

instance : IsTotal (String × Frac) rAsc :=
  ⟨fun a b => (le_total (Frac.val a.2) (Frac.val b.2)).imp
    (fun h => (fle_iff _ _).mpr h) (fun h => (fle_iff _ _).mpr h)⟩

/-- C1: a group whose first averaged value is 0 and whose last is 20 makes the
variacao column hold positive infinity (pandas float division by zero), and the
Media Variacao mean over per-school variations becomes infinity as well: the
value is neither absent nor excluded from the downstream mean. -/
theorem c1_divzero_produces_inf :
    variacoes rsC1 = [PVal.posInf] ∧ mediaVariacao rsC1 = PVal.posInf := by decide

/-- C2: an inverted date range (start > end) stops the render cycle with no
filtered frame at all; a valid range keeps exactly the records whose date lies
in the inclusive range. -/
theorem c2_filtro_datas (inicio fim : Int) (rs : List Registro) :
    (fim < inicio → filtroDatas inicio fim rs = none) ∧
    (inicio ≤ fim → ∃ l, filtroDatas inicio fim rs = some l ∧
      ∀ r, r ∈ l ↔ r ∈ rs ∧ inicio ≤ r.data ∧ r.data ≤ fim) := by
  constructor
  · intro h
    simp [filtroDatas, h]
  · intro h
    refine ⟨rs.filter (fun r => decide (inicio ≤ r.data) && decide (r.data ≤ fim)), ?_, ?_⟩
    · rw [filtroDatas, if_neg (by omega)]
    · intro r
      simp [List.mem_filter, and_assoc]

/-- C2 witness at a concrete inverted and a concrete valid range. -/
theorem c2_filtro_datas_witness :
    filtroDatas 5 3 regC2 = none ∧
    ∃ l, filtroDatas 1 4 regC2 = some l ∧
      ∀ r, r ∈ l ↔ r ∈ regC2 ∧ 1 ≤ r.data ∧ r.data ≤ 4 :=
  ⟨(c2_filtro_datas 5 3 regC2).1 (by decide), (c2_filtro_datas 1 4 regC2).2 (by decide)⟩

/-- C3: a variation row with nonzero first value carries
round(((last - first) / first) * 100, 2), and the scenario with first 40 and
last 60 yields exactly 50. -/
theorem c3_percentChange (rs : List Registro) (row : FLRow) (_hrow : row ∈ fl rs)
    (h0 : row.primeiro.val ≠ 0) :
    (∃ f : Frac, variacao row.primeiro row.ultimo = PVal.num f ∧
      f.val = round2Q ((row.ultimo.val - row.primeiro.val) / row.primeiro.val * 100)) ∧
    variacoes rsC3 = [PVal.num ⟨5000, 100, by norm_num⟩] ∧
    Frac.val ⟨5000, 100, by norm_num⟩ = 50 := by
  refine ⟨?_, by decide, by norm_num [Frac.val]⟩
  have hnum : row.primeiro.num ≠ 0 := fun h => h0 ((val_eq_zero_iff _).mpr h)
  refine ⟨_, by rw [variacao, if_neg hnum], ?_⟩
  rw [val_fround2, val_fmul, val_fdiv _ _ hnum, val_fsub, val_mk]
  norm_num

/-- C3 witness: the scenario row itself. -/
theorem c3_percentChange_witness :
    ∃ f : Frac, variacao (⟨40, 1, one_pos⟩ : Frac) ⟨60, 1, one_pos⟩ = PVal.num f ∧
      f.val = round2Q ((Frac.val ⟨60, 1, one_pos⟩ - Frac.val ⟨40, 1, one_pos⟩) /
        Frac.val ⟨40, 1, one_pos⟩ * 100) :=
  (c3_percentChange rsC3 ⟨"A", ⟨40, 1, one_pos⟩, ⟨60, 1, one_pos⟩, 2⟩
    (by decide) (by norm_num [Frac.val])).1

/-- C4: per-school variation works on the (escola, data)-averaged series:
primeiro is the averaged value at the school's earliest distinct date, ultimo
at its latest; the school enters fl exactly when it has at least two distinct
dates, and it appears in the plain grouped-mean view avg_s regardless. -/
theorem c4_variacao_series (rs : List Registro) (e : String) (he : e ∈ escolasDe rs) :
    (∃ dmin ∈ datasDe rs e, (∀ d ∈ datasDe rs e, dmin ≤ d) ∧
      (flRowDe rs e).primeiro = mediaEm rs e dmin) ∧
    (∃ dmax ∈ datasDe rs e, (∀ d ∈ datasDe rs e, d ≤ dmax) ∧
      (flRowDe rs e).ultimo = mediaEm rs e dmax) ∧
    (flRowDe rs e ∈ fl rs ↔
      2 ≤ ((rs.filter (fun r => decide (r.escola = e))).map (fun r => r.data)).dedup.length) ∧
    (e, media ((rs.filter (fun r => decide (r.escola = e))).map (fun r => r.resultado)))
      ∈ avg_s rs := by
  have hne : datasDe rs e ≠ [] := by
    obtain ⟨r, hr, hre⟩ := List.mem_map.mp ((mem_sortDedup rStr).mp he)
    have hmem : r.data ∈ datasDe rs e := by
      unfold datasDe
      rw [mem_sortDedup]
      exact List.mem_map.mpr ⟨r, List.mem_filter.mpr ⟨hr, by simp [hre]⟩, rfl⟩
    intro h0
    rw [h0] at hmem
    exact List.not_mem_nil _ hmem
  have hs : (datasDe rs e).Pairwise (fun a b => a ≤ b) := pairwise_sortDedup _ _
  have hh : (tsDe rs e).head? =
      some ((datasDe rs e).head hne, mediaEm rs e ((datasDe rs e).head hne)) := by
    unfold tsDe
    rw [List.head?_map, List.head?_eq_head hne]
    rfl
  have hl : (tsDe rs e).getLast? =
      some ((datasDe rs e).getLast hne, mediaEm rs e ((datasDe rs e).getLast hne)) := by
    unfold tsDe
    rw [List.getLast?_map, List.getLast?_eq_getLast _ hne]
    rfl
  have hcount : (flRowDe rs e).count = (datasDe rs e).length := by
    simp [flRowDe, tsDe]
  refine ⟨?_, ?_, ?_, ?_⟩
  · refine ⟨(datasDe rs e).head hne, List.head_mem hne, head_min hs hne, ?_⟩
    simp [flRowDe, hh]
  · refine ⟨(datasDe rs e).getLast hne, List.getLast_mem hne, getLast_max hs hne, ?_⟩
    simp [flRowDe, hl]
  · have hmemAll : flRowDe rs e ∈ flAll rs := List.mem_map_of_mem (flRowDe rs) he
    rw [fl, List.mem_filter]
    have hlen : (datasDe rs e).length =
        ((rs.filter (fun r => decide (r.escola = e))).map (fun r => r.data)).dedup.length :=
      length_sortDedup _ _
    simp [hmemAll, hcount, hlen]
  · exact List.mem_map.mpr ⟨e, he, rfl⟩

/-- C4 witness at a concrete school with two distinct dates. -/
theorem c4_variacao_series_witness :
    (∃ dmin ∈ datasDe rsC4 "A", (∀ d ∈ datasDe rsC4 "A", dmin ≤ d) ∧
      (flRowDe rsC4 "A").primeiro = mediaEm rsC4 "A" dmin) ∧
    (∃ dmax ∈ datasDe rsC4 "A", (∀ d ∈ datasDe rsC4 "A", d ≤ dmax) ∧
      (flRowDe rsC4 "A").ultimo = mediaEm rsC4 "A" dmax) ∧
    (flRowDe rsC4 "A" ∈ fl rsC4 ↔
      2 ≤ ((rsC4.filter (fun r => decide (r.escola = "A"))).map (fun r => r.data)).dedup.length) ∧
    ("A", media ((rsC4.filter (fun r => decide (r.escola = "A"))).map (fun r => r.resultado)))
      ∈ avg_s rsC4 :=
  c4_variacao_series rsC4 "A" (by decide)

/-- C5: the Top 10 list has at most 10 rows, is non-increasing in the mean,
contains only schools of mean at least 50, and contains every such school
unless it is full; dually for the Top 10 a Melhorar list with mean below 50. -/
theorem c5_rankings (rs : List Registro) :
    ((best rs).length ≤ 10 ∧
     (best rs).Pairwise (fun p q => Frac.val q.2 ≤ Frac.val p.2) ∧
     (∀ p ∈ best rs, p ∈ avg_s rs ∧ (50 : ℚ) ≤ Frac.val p.2) ∧
     (∀ p ∈ avg_s rs, (50 : ℚ) ≤ Frac.val p.2 → p ∈ best rs ∨ (best rs).length = 10)) ∧
    ((worst rs).length ≤ 10 ∧
     (worst rs).Pairwise (fun p q => Frac.val p.2 ≤ Frac.val q.2) ∧
     (∀ p ∈ worst rs, p ∈ avg_s rs ∧ Frac.val p.2 < 50) ∧
     (∀ p ∈ avg_s rs, Frac.val p.2 < 50 → p ∈ worst rs ∨ (worst rs).length = 10)) := by
  have h50 : Frac.val ⟨50, 1, one_pos⟩ = (50 : ℚ) := by
    rw [val_mk]
    norm_num
  constructor
  · refine ⟨?_, ?_, ?_, ?_⟩
    · rw [best, List.length_take]
      omega
    · have hsort := List.sorted_insertionSort rDesc
        ((avg_s rs).filter (fun p => fle ⟨50, 1, one_pos⟩ p.2))
      exact ((hsort.sublist (List.take_sublist _ _)).imp
        (fun h => (fle_iff _ _).mp h))
    · intro p hp
      have hp2 := (List.mem_insertionSort _).mp (List.take_subset _ _ hp)
      have hp3 := List.mem_filter.mp hp2
      refine ⟨hp3.1, ?_⟩
      have := (fle_iff _ _).mp hp3.2
      rwa [h50] at this
    · intro p hp hv
      have hpf : p ∈ (avg_s rs).filter (fun q => fle ⟨50, 1, one_pos⟩ q.2) :=
        List.mem_filter.mpr ⟨hp, (fle_iff _ _).mpr (by rw [h50]; exact hv)⟩
      have hps := (List.mem_insertionSort rDesc).mpr hpf
      by_cases h10 : (((avg_s rs).filter
          (fun q => fle ⟨50, 1, one_pos⟩ q.2)).insertionSort rDesc).length ≤ 10
      · left
        rw [best, List.take_of_length_le h10]
        exact hps
      · right
        rw [best, List.length_take]
        omega
  · refine ⟨?_, ?_, ?_, ?_⟩
    · rw [worst, List.length_take]
      omega
    · have hsort := List.sorted_insertionSort rAsc
        ((avg_s rs).filter (fun p => flt p.2 ⟨50, 1, one_pos⟩))
      exact ((hsort.sublist (List.take_sublist _ _)).imp
        (fun h => (fle_iff _ _).mp h))
    · intro p hp
      have hp2 := (List.mem_insertionSort _).mp (List.take_subset _ _ hp)
      have hp3 := List.mem_filter.mp hp2
      refine ⟨hp3.1, ?_⟩
      have := (flt_iff _ _).mp hp3.2
      rwa [h50] at this
    · intro p hp hv
      have hpf : p ∈ (avg_s rs).filter (fun q => flt q.2 ⟨50, 1, one_pos⟩) :=
        List.mem_filter.mpr ⟨hp, (flt_iff _ _).mpr (by rw [h50]; exact hv)⟩
      have hps := (List.mem_insertionSort rAsc).mpr hpf
      by_cases h10 : (((avg_s rs).filter
          (fun q => flt q.2 ⟨50, 1, one_pos⟩)).insertionSort rAsc).length ≤ 10
      · left
        rw [worst, List.take_of_length_le h10]
        exact hps
      · right
        rw [worst, List.length_take]
        omega

/-- C5 witness at a concrete collection with one school above and one below 50. -/
theorem c5_rankings_witness :
    (best rsC5).length ≤ 10 ∧
    (("A", (⟨80, 1, one_pos⟩ : Frac)) ∈ best rsC5 ∨ (best rsC5).length = 10) := by
  have h := c5_rankings rsC5
  exact ⟨h.1.1, h.1.2.2.2 ("A", ⟨80, 1, one_pos⟩) (by decide) (by norm_num [Frac.val])⟩

/-- C6 counterexample: with three buffered entries whose second insert raises,
the loop inserts only the first entry; the third entry's insert would have
succeeded but is never attempted, so the batch is aborted at the failure, only
the single raised message is reported, and no per-entry success report exists. -/
theorem c6_counterexample :
    falhaC6 (mkRegistro "E" "1 ano" "Portugues" 0 ⟨"C", 70⟩) = none ∧
    insertLoop falhaC6 (sC6.entries.map (mkRegistro "E" "1 ano" "Portugues" 0)) =
      ([mkRegistro "E" "1 ano" "Portugues" 0 ⟨"A", 50⟩], some "transport") ∧
    (submit_main falhaC6 "E" "1 ano" "Portugues" 0 sC6).relatorios =
      [mkRegistro "E" "1 ano" "Portugues" 0 ⟨"A", 50⟩] ∧
    (submit_main falhaC6 "E" "1 ano" "Portugues" 0 sC6).entries = sC6.entries := by
  decide

/-- C6 amended: entries are inserted one at a time; a run with no failure
inserts everything; a failure partway keeps the successfully inserted prefix
(no rollback), aborts before the failing entry's successors, reports only the
first raised message, and leaves the buffer and the cache untouched. -/
theorem c6_amended (falha : Registro → Option String) :
    (∀ l, (∀ x ∈ l, falha x = none) → insertLoop falha l = (l, none)) ∧
    (∀ pre r post msg, (∀ x ∈ pre, falha x = none) → falha r = some msg →
      insertLoop falha (pre ++ r :: post) = (pre, some msg)) ∧
    (∀ esc ser dis d s,
      (insertLoop falha (s.entries.map (mkRegistro esc ser dis d))).2 ≠ none →
      (submit_main falha esc ser dis d s).relatorios =
        s.relatorios ++ (insertLoop falha (s.entries.map (mkRegistro esc ser dis d))).1 ∧
      (submit_main falha esc ser dis d s).entries = s.entries ∧
      (submit_main falha esc ser dis d s).cache = s.cache) := by
  refine ⟨?_, ?_, ?_⟩
  · intro l h
    induction l with
    | nil => rfl
    | cons x xs ih =>
      have hx : falha x = none := h x (by simp)
      simp [insertLoop, hx, ih (fun y hy => h y (by simp [hy]))]
  · intro pre r post msg hpre hr
    induction pre with
    | nil =>
      simp [insertLoop, hr]
    | cons x xs ih =>
      have hx : falha x = none := hpre x (by simp)
      rw [List.cons_append]
      simp [insertLoop, hx, ih (fun y hy => hpre y (by simp [hy]))]
  · intro esc ser dis d s hne
    cases hcase : (insertLoop falha (s.entries.map (mkRegistro esc ser dis d))).2 with
    | none => exact absurd hcase hne
    | some msg =>
      refine ⟨?_, ?_, ?_⟩ <;> simp [submit_main, hcase]

/-- C6 witness for the amended behaviour, at the counterexample input. -/
theorem c6_amended_witness :
    insertLoop falhaC6 ([mkRegistro "E" "1 ano" "Portugues" 0 ⟨"A", 50⟩] ++
        mkRegistro "E" "1 ano" "Portugues" 0 ⟨"B", 60⟩ ::
          [mkRegistro "E" "1 ano" "Portugues" 0 ⟨"C", 70⟩]) =
      ([mkRegistro "E" "1 ano" "Portugues" 0 ⟨"A", 50⟩], some "transport") :=
  (c6_amended falhaC6).2.1 [mkRegistro "E" "1 ano" "Portugues" 0 ⟨"A", 50⟩]
    (mkRegistro "E" "1 ano" "Portugues" 0 ⟨"B", 60⟩)
    [mkRegistro "E" "1 ano" "Portugues" 0 ⟨"C", 70⟩]
    "transport" (by decide) (by decide)

/-- C7: carregar_dados returns the whole table ordered non-decreasing by date,
and an empty table produces an empty frame, not an error. -/
theorem c7_listRecords (tabela : List Registro) :
    (carregar_dados tabela).Pairwise (fun a b => a.data ≤ b.data) ∧
    List.Perm (carregar_dados tabela) tabela ∧
    carregar_dados [] = [] :=
  ⟨List.sorted_insertionSort rData tabela, List.perm_insertionSort rData tabela, rfl⟩

/-- C8: after a fully successful batch insert, a lookup insert with a non-empty
name, or a lookup delete, the memoized snapshot is invalidated and the next
read recomputes from the store tables. -/
theorem c8_invalidation (falha : Registro → Option String) (esc ser dis : String)
    (d : Int) (nome : String) (s : AppState)
    (hok : (insertLoop falha (s.entries.map (mkRegistro esc ser dis d))).2 = none)
    (hnome : nome ≠ "") :
    invalidado (submit_main falha esc ser dis d s) ∧
    invalidado (add_escola nome s) ∧
    invalidado (del_escola nome s) ∧
    invalidado (add_construtor nome s) ∧
    invalidado (del_construtor nome s) := by
  have base : ∀ t : AppState, t.cache = none → invalidado t := by
    intro t ht
    exact ⟨ht, by simp [leituras, ht]⟩
  refine ⟨?_, ?_, ?_, ?_, ?_⟩
  · apply base
    simp [submit_main, hok]
  · apply base
    simp [add_escola, hnome]
  · apply base
    simp [del_escola]
  · apply base
    simp [add_construtor, hnome]
  · apply base
    simp [del_construtor]

/-- C8 witness at a concrete state holding a stale snapshot. -/
theorem c8_invalidation_witness :
    invalidado (submit_main (fun _ => none) "E1" "1 ano" "Portugues" 0 sW8) ∧
    invalidado (add_escola "E2" sW8) := by
  have h := c8_invalidation (fun _ => none) "E1" "1 ano" "Portugues" 0 "E2" sW8
    (by decide) (by decide)
  exact ⟨h.1, h.2.1⟩

/-- C9 counterexample: a row whose grouping key fields are not all null (serie
and disciplina present) but whose escola, construtor, resultado are all null is
dropped by the implemented check, so the dashboard treats the collection as
empty while the claim says it has data. -/
theorem c9_counterexample :
    temDadosSpec [rowC9] = true ∧ temDados [rowC9] = false := by decide

/-- C9 amended: the collection counts as having data exactly when some row has
escola, construtor, resultado not all null (the dropna subset on line 80), not
the grouping key fields. -/
theorem c9_amended (rows : List Row) :
    temDados rows = true ↔
      ∃ r ∈ rows, r.escola ≠ none ∨ r.construtor ≠ none ∨ r.resultado ≠ none := by
  simp [temDados, List.isEmpty_iff, List.filter_eq_nil_iff, Option.isSome_iff_ne_none]
  constructor
  · rintro ⟨x, hx, h⟩
    exact ⟨x, hx, by tauto⟩
  · rintro ⟨r, hr, h⟩
    exact ⟨r, hr, by tauto⟩

/-- C10: a lookup insert is issued only for a non-empty entered name; with an
empty input the handler is a no-op, so the lookup tables never receive an empty
name through the form. -/
theorem c10_guard (nome : String) (s : AppState) :
    (nome = "" → add_escola nome s = s ∧ add_construtor nome s = s) ∧
    (nome ≠ "" → (add_escola nome s).escolas = s.escolas ++ [nome] ∧
      (add_construtor nome s).construtores = s.construtores ++ [nome]) ∧
    ("" ∉ s.escolas → "" ∉ (add_escola nome s).escolas) ∧
    ("" ∉ s.construtores → "" ∉ (add_construtor nome s).construtores) := by
  refine ⟨?_, ?_, ?_, ?_⟩
  · intro h
    simp [add_escola, add_construtor, h]
  · intro h
    simp [add_escola, add_construtor, h]
  · intro h
    by_cases hn : nome = ""
    · simpa [add_escola, hn] using h
    · simp [add_escola, hn, h]
      exact fun he => hn he.symm
  · intro h
    by_cases hn : nome = ""
    · simpa [add_construtor, hn] using h
    · simp [add_construtor, hn, h]
      exact fun he => hn he.symm

/-- C10 witness: the empty name is a no-op, a non-empty one is appended. -/
theorem c10_guard_witness :
    add_escola "" sW10 = sW10 ∧ (add_escola "X" sW10).escolas = sW10.escolas ++ ["X"] :=
  ⟨((c10_guard "" sW10).1 rfl).1, ((c10_guard "X" sW10).2.1 (by decide)).1⟩

end BNCC
